import Mathlib

/-!
Shallow embedding of the `test-gps` backend (`src/backend/main.go`): a Go
HTTP server backed by GORM over SQLite, exposing two endpoints,
`POST /api/location` (create) and `GET /api/location/last` (fetch latest),
both wrapped by the `enableCORS` middleware.

Modelling conventions:
* `float64` coordinates are carried verbatim by the server (never computed
  with), so they are modelled as rationals (`Rat`); every finite IEEE double
  embeds into the rationals and Go's JSON encoder round-trips `float64`
  exactly.
* `time.Time` values are modelled as naturals; `0` stands for Go's zero
  time, the zero value left in a decoded struct when the client did not
  supply a `Timestamp` field.
* The SQLite `locations` table is a list of rows in insertion order.
* GORM/SQLite behavior of `DB.Create` and `DB.Order("id DESC").First` is
  embedded per GORM's documented semantics (see `dbCreate`,
  `dbFetchLatest`).
* Storage-layer I/O failures (disk errors) are environmental and outside
  the model; the embedded store is always reachable.
-/

namespace TestGps

/-- Coordinate values: `float64` in Go, carried verbatim (no arithmetic is
ever performed on them by the server), modelled as rationals. -/
abbrev Coord := Rat

/-- The `Location` struct (main.go lines 17-22): `ID uint` tagged
`gorm:"primaryKey"`, `Latitude`/`Longitude float64`, and `Timestamp
time.Time` tagged `gorm:"autoCreateTime"`. -/
structure Location where
  id : Nat
  latitude : Coord
  longitude : Coord
  timestamp : Nat
deriving Repr, DecidableEq

/-- The SQLite `locations` table: stored rows in insertion order. -/
abbrev Table := List Location

/-- Largest id present in the table (`0` for the empty table); SQLite
assigns `maxId t + 1` as the rowid of an insert that omits the primary
key. -/
def maxId (t : Table) : Nat :=
  t.foldr (fun r m => max r.id m) 0

/-- Whether some stored row already uses the id `i` (the `UNIQUE`
constraint of the primary key). -/
def idTaken (t : Table) (i : Nat) : Bool :=
  t.any (fun r => r.id == i)

/-- `DB.Create(&newLocation)` on SQLite (main.go line 90), per GORM's
documented semantics: the struct's fields are inserted as given; a zero
primary key is omitted from the INSERT so SQLite assigns
`max existing id + 1`, while a non-zero primary key is inserted verbatim
and violates the UNIQUE constraint when already present; a field tagged
`autoCreateTime` is filled with the current time only when it holds the
zero value. Returns the updated table and the row as stored. -/
def dbCreate (now : Nat) (t : Table) (loc : Location) :
    Except String (Table × Location) :=
  let assignedId := if loc.id = 0 then maxId t + 1 else loc.id
  if idTaken t assignedId then
    Except.error "UNIQUE constraint failed: locations.id"
  else
    let stored : Location :=
      { id := assignedId
        latitude := loc.latitude
        longitude := loc.longitude
        timestamp := if loc.timestamp = 0 then now else loc.timestamp }
    Except.ok (t ++ [stored], stored)

/-- `DB.Order("id DESC").First(&lastLocation)` (main.go line 113): the row
with the maximum id, or GORM's `ErrRecordNotFound` (modelled as `none`)
on an empty table. Ids of stored rows are unique, so the tie-breaking
branch is unreachable on tables the server builds. -/
def dbFetchLatest : Table → Option Location
  | [] => none
  | r :: rs =>
    match dbFetchLatest rs with
    | none => some r
    | some r2 => if r2.id > r.id then some r2 else some r

/-- HTTP request methods. `other` covers methods such as PUT or DELETE
that the server treats uniformly. -/
inductive Method where
  | GET
  | POST
  | OPTIONS
  | other (name : String)
deriving Repr, DecidableEq

/-- The JSON object a client may post, field by field; `none` means the
field is absent from the object. Go's `json` decoder leaves absent fields
at the Go zero value. -/
structure LocationJson where
  idField : Option Nat
  latitudeField : Option Coord
  longitudeField : Option Coord
  timestampField : Option Nat
deriving Repr, DecidableEq

/-- A request body, as seen by `json.NewDecoder(r.Body).Decode` (main.go
line 83): either undecodable (carrying the Go error text) or a JSON
object that decodes into a `Location`. -/
inductive Body where
  | malformed (errMsg : String)
  | json (j : LocationJson)
deriving Repr, DecidableEq

/-- Result of decoding a request body into `var newLocation Location`:
Go's decoder reports an error on a malformed body and otherwise fills
fields present in the JSON, leaving absent fields at their zero value. -/
def decodeBody : Body → Except String Location
  | Body.malformed e => Except.error e
  | Body.json j =>
    Except.ok
      { id := j.idField.getD 0
        latitude := j.latitudeField.getD 0
        longitude := j.longitudeField.getD 0
        timestamp := j.timestampField.getD 0 }

/-- An HTTP request as the two handlers observe it: its method and its
body (the paths are dispatched by `http.HandleFunc`, see `serve`). -/
structure Request where
  method : Method
  body : Body
deriving Repr, DecidableEq

/-- Response bodies the server can produce: empty, a plain-text error
message (`http.Error`), the JSON acknowledgment object with a single
`message` field, or a stored row serialized as JSON (verbatim, per Go's
exact `float64` round-trip). -/
inductive RespBody where
  | empty
  | text (msg : String)
  | jsonMsg (msg : String)
  | jsonLoc (loc : Location)
deriving Repr, DecidableEq

/-- An HTTP response: status code, the headers explicitly set by the
source via `w.Header().Set`, and the body. -/
structure Response where
  status : Nat
  headers : List (String × String)
  body : RespBody
deriving Repr, DecidableEq

/-- The two registered paths (main.go lines 43-45). -/
inductive Path where
  | location
  | locationLast
deriving Repr, DecidableEq

/-- `handlePostLocation` (main.go lines 75-100): reject non-POST with 405,
reject undecodable bodies with 400 embedding the decode error, insert the
decoded struct, map insert failure to 500, success to 201 with the JSON
acknowledgment. Returns the updated table with the response. -/
def handlePostLocation (now : Nat) (db : Table) (r : Request) :
    Table × Response :=
  if r.method ≠ Method.POST then
    (db, ⟨405, [], RespBody.text "Method not allowed"⟩)
  else
    match decodeBody r.body with
    | Except.error e =>
      (db, ⟨400, [], RespBody.text ("Invalid request payload: " ++ e)⟩)
    | Except.ok newLocation =>
      match dbCreate now db newLocation with
      | Except.error e =>
        (db, ⟨500, [], RespBody.text ("Failed to save location: " ++ e)⟩)
      | Except.ok (db2, _) =>
        (db2, ⟨201, [], RespBody.jsonMsg "Location saved successfully"⟩)

/-- `handleGetLastLocation` (main.go lines 104-127): reject non-GET with
405, map an empty table to 404, otherwise return the max-id row as JSON
with status 200 and a JSON content type. -/
def handleGetLastLocation (_now : Nat) (db : Table) (r : Request) :
    Table × Response :=
  if r.method ≠ Method.GET then
    (db, ⟨405, [], RespBody.text "Method not allowed"⟩)
  else
    match dbFetchLatest db with
    | none => (db, ⟨404, [], RespBody.text "No locations found"⟩)
    | some lastLocation =>
      (db, ⟨200, [("Content-Type", "application/json")],
            RespBody.jsonLoc lastLocation⟩)

/-- The three cross-origin headers `enableCORS` sets on every response
(main.go lines 58-62). -/
def corsHeaders : List (String × String) :=
  [("Access-Control-Allow-Origin", "*"),
   ("Access-Control-Allow-Methods", "POST, GET, OPTIONS"),
   ("Access-Control-Allow-Headers", "Content-Type")]

/-- `enableCORS` middleware (main.go lines 55-71): set the three
cross-origin headers on every response; answer OPTIONS immediately with
200 and no body, bypassing the wrapped handler; otherwise delegate. -/
def enableCORS (next : Nat → Table → Request → Table × Response)
    (now : Nat) (db : Table) (r : Request) : Table × Response :=
  if r.method = Method.OPTIONS then
    (db, ⟨200, corsHeaders, RespBody.empty⟩)
  else
    let res := next now db r
    (res.1, { res.2 with headers := corsHeaders ++ res.2.headers })

/-- The routing set up in `main` (main.go lines 43-45): each path is
served by its handler wrapped in `enableCORS`. `now` is the wall-clock
time at which the request is processed. -/
def serve (now : Nat) (db : Table) (p : Path) (r : Request) :
    Table × Response :=
  match p with
  | Path.location => enableCORS handlePostLocation now db r
  | Path.locationLast => enableCORS handleGetLastLocation now db r

/-- Run a sequence of requests (each with its arrival time and path)
against the server, threading the table through. -/
def serveAll (db : Table) : List (Nat × Path × Request) → Table
  | [] => db
  | (now, p, r) :: rest => serveAll (serve now db p r).1 rest

/-- A create request that posts exactly a coordinate pair, as the
frontend does: a JSON object with only `Latitude` and `Longitude`. -/
def coordPost (lat lon : Coord) : Request :=
  ⟨Method.POST, Body.json ⟨none, some lat, some lon, none⟩⟩

/-- The row a create request with JSON body `j` (decoding to a zero id)
appends to table `t` at time `now`. -/
def insertedRow (now : Nat) (t : Table) (j : LocationJson) : Location :=
  ⟨maxId t + 1, j.latitudeField.getD 0, j.longitudeField.getD 0,
   if j.timestampField.getD 0 = 0 then now else j.timestampField.getD 0⟩

/-- Run a sequence of create requests carrying JSON bodies (each with its
arrival time) against the server. -/
def runJsonPosts (db : Table) : List (Nat × LocationJson) → Table
  | [] => db
  | (now, j) :: rest =>
    runJsonPosts
      (serve now db Path.location ⟨Method.POST, Body.json j⟩).1 rest

/-! ### Store lemmas -/

/-- Every stored row's id is bounded by `maxId`. -/
theorem id_le_maxId {t : Table} {r : Location} (h : r ∈ t) :
    r.id ≤ maxId t := by
  induction t with
  | nil => cases h
  | cons a rest ih =>
    rcases List.mem_cons.mp h with h1 | h2
    · subst h1; simp [maxId]
    · have := ih h2
      simp [maxId] at this ⊢
      omega

/-- The id one past `maxId` is fresh: no stored row uses it. -/
theorem idTaken_succ_maxId (t : Table) : idTaken t (maxId t + 1) = false := by
  unfold idTaken
  rw [List.any_eq_false]
  intro r hr
  have := id_le_maxId hr
  simp only [beq_iff_eq]
  omega

/-- Inserting a struct with zero id always succeeds, appends one row, and
assigns the fresh id `maxId t + 1`. -/
theorem dbCreate_zero_id (now : Nat) (t : Table) (loc : Location)
    (hz : loc.id = 0) :
    dbCreate now t loc =
      Except.ok
        (t ++ [⟨maxId t + 1, loc.latitude, loc.longitude,
                if loc.timestamp = 0 then now else loc.timestamp⟩],
         ⟨maxId t + 1, loc.latitude, loc.longitude,
          if loc.timestamp = 0 then now else loc.timestamp⟩) := by
  unfold dbCreate
  simp [hz, idTaken_succ_maxId]

/-- Unfolding equation for `dbFetchLatest` on a nonempty table. -/
theorem dbFetchLatest_cons (a : Location) (rs : List Location) :
    dbFetchLatest (a :: rs) =
      match dbFetchLatest rs with
      | none => some a
      | some r2 => if r2.id > a.id then some r2 else some a := rfl

/-- Fetch-latest fails exactly on the empty table. -/
theorem dbFetchLatest_eq_none_iff (t : Table) :
    dbFetchLatest t = none ↔ t = [] := by
  cases t with
  | nil => simp [dbFetchLatest]
  | cons r rs =>
    simp only [dbFetchLatest]
    constructor
    · intro h
      cases hrec : dbFetchLatest rs with
      | none => rw [hrec] at h; cases h
      | some r2 =>
        rw [hrec] at h
        by_cases hlt : r2.id > r.id <;> simp [hlt] at h
    · intro h; cases h

/-- On a nonempty table, fetch-latest returns a stored row whose id
dominates every stored row's id. -/
theorem dbFetchLatest_max (t : Table) (hne : t ≠ []) :
    ∃ loc, dbFetchLatest t = some loc ∧ loc ∈ t ∧
      ∀ r ∈ t, r.id ≤ loc.id := by
  induction t with
  | nil => cases hne rfl
  | cons a rest ih =>
    cases hrest : rest with
    | nil =>
      refine ⟨a, ?_, List.mem_cons_self a [], ?_⟩
      · simp [dbFetchLatest]
      · intro r hr
        rcases List.mem_cons.mp hr with h1 | h2
        · subst h1; exact Nat.le_refl _
        · cases h2
    | cons b bs =>
      subst hrest
      obtain ⟨loc, hfetch, hmem, hmax⟩ := ih (by simp)
      by_cases hlt : loc.id > a.id
      · refine ⟨loc, ?_, List.mem_cons_of_mem a hmem, ?_⟩
        · rw [dbFetchLatest_cons, hfetch]; simp [hlt]
        · intro r hr
          rcases List.mem_cons.mp hr with h1 | h2
          · subst h1; omega
          · exact hmax r h2
      · refine ⟨a, ?_, List.mem_cons_self a _, ?_⟩
        · rw [dbFetchLatest_cons, hfetch]; simp [hlt]
        · intro r hr
          rcases List.mem_cons.mp hr with h1 | h2
          · subst h1; exact Nat.le_refl _
          · have := hmax r h2; omega

/-- Appending a row whose id strictly dominates the table makes it the
fetched row. -/
theorem dbFetchLatest_append (t : Table) (r : Location)
    (hdom : ∀ r2 ∈ t, r2.id < r.id) :
    dbFetchLatest (t ++ [r]) = some r := by
  induction t with
  | nil => simp [dbFetchLatest]
  | cons a rest ih =>
    have hrec := ih (fun r2 h2 => hdom r2 (List.mem_cons_of_mem a h2))
    have ha : a.id < r.id := hdom a (List.mem_cons_self a rest)
    simp only [List.cons_append]
    rw [dbFetchLatest_cons, hrec]
    simp [ha]

/-! ### Serve-level lemmas -/

/-- A POST whose JSON body decodes to a zero id succeeds: it appends
exactly `insertedRow` and answers 201 with the acknowledgment message. -/
theorem serve_post_zero_id (now : Nat) (t : Table) (j : LocationJson)
    (hid : j.idField.getD 0 = 0) :
    serve now t Path.location ⟨Method.POST, Body.json j⟩ =
      (t ++ [insertedRow now t j],
       ⟨201, corsHeaders, RespBody.jsonMsg "Location saved successfully"⟩) := by
  have hcreate :=
    dbCreate_zero_id now t
      ⟨j.idField.getD 0, j.latitudeField.getD 0, j.longitudeField.getD 0,
       j.timestampField.getD 0⟩ hid
  simp only [serve, enableCORS, handlePostLocation, decodeBody,
    insertedRow]
  rw [if_neg (by simp), if_neg (by simp)]
  simp only [hcreate]
  simp

/-- Unfolding a GET of `/api/location/last`: the table is untouched and
the response is 404 on an empty table, otherwise 200 with the fetched
row as JSON. -/
theorem serve_get_last (now : Nat) (t : Table) (b : Body) :
    serve now t Path.locationLast ⟨Method.GET, b⟩ =
      match dbFetchLatest t with
      | none => (t, ⟨404, corsHeaders, RespBody.text "No locations found"⟩)
      | some loc =>
        (t, ⟨200, corsHeaders ++ [("Content-Type", "application/json")],
             RespBody.jsonLoc loc⟩) := by
  simp only [serve, enableCORS, handleGetLastLocation]
  rw [if_neg (by simp), if_neg (by simp)]
  cases dbFetchLatest t <;> rfl

/-- Every id in the table a zero-id post produces is dominated by the new
row's id; packaged for reuse: the new row strictly dominates `t`. -/
theorem insertedRow_dominates (now : Nat) (t : Table) (j : LocationJson) :
    ∀ r2 ∈ t, r2.id < (insertedRow now t j).id := by
  intro r2 h2
  have := id_le_maxId h2
  simp only [insertedRow]
  omega

/-- A run of zero-id posts only appends rows, and every appended row's id
strictly dominates every id already in the table. -/
theorem runJsonPosts_zero_id_spec (posts : List (Nat × LocationJson)) :
    ∀ t, (∀ p ∈ posts, p.2.idField.getD 0 = 0) →
    ∃ added, runJsonPosts t posts = t ++ added ∧
      ∀ r ∈ added, ∀ r2 ∈ t, r2.id < r.id := by
  induction posts with
  | nil => intro t _; exact ⟨[], by simp [runJsonPosts], by simp⟩
  | cons p rest ih =>
    intro t hz
    obtain ⟨now, j⟩ := p
    have hzj : j.idField.getD 0 = 0 := hz (now, j) (List.mem_cons_self _ _)
    have hstep := serve_post_zero_id now t j hzj
    obtain ⟨added, hrun, hdom⟩ :=
      ih (t ++ [insertedRow now t j])
        (fun q hq => hz q (List.mem_cons_of_mem _ hq))
    refine ⟨insertedRow now t j :: added, ?_, ?_⟩
    · simp only [runJsonPosts, hstep]
      rw [hrun]; simp
    · intro r hr r2 h2
      rcases List.mem_cons.mp hr with h1 | h3
      · subst h1; exact insertedRow_dominates now t j r2 h2
      · exact hdom r h3 r2 (List.mem_append_left _ h2)

/-- A run of zero-id posts preserves strict increase of ids along the
table: starting from a table whose ids strictly increase (in particular
the empty one), the resulting table's ids strictly increase in insertion
order, hence are unique and never reused. -/
theorem runJsonPosts_pairwise (posts : List (Nat × LocationJson)) :
    ∀ t, (∀ p ∈ posts, p.2.idField.getD 0 = 0) →
    List.Pairwise (fun a b => a.id < b.id) t →
    List.Pairwise (fun a b => a.id < b.id) (runJsonPosts t posts) := by
  induction posts with
  | nil => intro t _ hp; simpa [runJsonPosts] using hp
  | cons p rest ih =>
    intro t hz hp
    obtain ⟨now, j⟩ := p
    have hzj : j.idField.getD 0 = 0 := hz (now, j) (List.mem_cons_self _ _)
    have hstep := serve_post_zero_id now t j hzj
    simp only [runJsonPosts, hstep]
    refine ih (t ++ [insertedRow now t j])
      (fun q hq => hz q (List.mem_cons_of_mem _ hq)) ?_
    rw [List.pairwise_append]
    refine ⟨hp, by simp, ?_⟩
    intro a ha b hb
    rw [List.mem_singleton] at hb
    subst hb
    exact insertedRow_dominates now t j a ha

/-- A nonempty run of zero-id posts ends with the row inserted by the
last post: the final table splits as everything written before the last
post followed by that post's row. -/
theorem runJsonPosts_last_row (posts : List (Nat × LocationJson)) :
    ∀ t, (∀ p ∈ posts, p.2.idField.getD 0 = 0) → posts ≠ [] →
    ∃ prev pN, posts.getLast? = some pN ∧
      runJsonPosts t posts = prev ++ [insertedRow pN.1 prev pN.2] := by
  induction posts with
  | nil => intro t _ hne; cases hne rfl
  | cons p rest ih =>
    intro t hz _
    obtain ⟨now, j⟩ := p
    have hzj : j.idField.getD 0 = 0 := hz (now, j) (List.mem_cons_self _ _)
    have hstep := serve_post_zero_id now t j hzj
    cases hrest : rest with
    | nil =>
      refine ⟨t, (now, j), rfl, ?_⟩
      simp only [runJsonPosts, hstep]
    | cons q qs =>
      subst hrest
      obtain ⟨prev, pN, hlast, hrun⟩ :=
        ih (t ++ [insertedRow now t j])
          (fun q2 hq => hz q2 (List.mem_cons_of_mem _ hq)) (by simp)
      refine ⟨prev, pN, ?_, ?_⟩
      · rw [List.getLast?_cons_cons]; exact hlast
      · simp only [runJsonPosts, hstep]; exact hrun

/-! ### Claims -/

/-- C1: for every coordinate pair, POSTing it to `/api/location` as a JSON
body and then GETting `/api/location/last` with no intervening inserts
returns status 200 with a record whose latitude and longitude exactly
equal the posted values, from any starting store state. -/
theorem c1_post_then_get_last_roundtrip (lat lon : Coord) (t : Table)
    (now1 now2 : Nat) (b : Body) :
    ∃ loc : Location,
      (serve now2 (serve now1 t Path.location (coordPost lat lon)).1
          Path.locationLast ⟨Method.GET, b⟩).2 =
        ⟨200, corsHeaders ++ [("Content-Type", "application/json")],
         RespBody.jsonLoc loc⟩ ∧
      loc.latitude = lat ∧ loc.longitude = lon := by
  refine ⟨insertedRow now1 t ⟨none, some lat, some lon, none⟩, ?_, rfl, rfl⟩
  have hcp : coordPost lat lon =
      ⟨Method.POST, Body.json ⟨none, some lat, some lon, none⟩⟩ := rfl
  rw [hcp, serve_post_zero_id now1 t ⟨none, some lat, some lon, none⟩ rfl]
  rw [show (((t ++ [insertedRow now1 t ⟨none, some lat, some lon, none⟩]),
        (⟨201, corsHeaders,
          RespBody.jsonMsg "Location saved successfully"⟩ : Response)) :
        Table × Response).1 =
      t ++ [insertedRow now1 t ⟨none, some lat, some lon, none⟩] from rfl]
  rw [serve_get_last,
    dbFetchLatest_append t _ (insertedRow_dominates now1 t _)]

/-- C2: GETting `/api/location/last` never changes the store, answers 404
exactly when the store is empty, otherwise answers 200 with the stored
record of maximum id; and after a nonempty sequence of inserts (posts
whose bodies do not carry a nonzero ID, as the spec's
`insert(latitude, longitude)` does) it returns exactly the row written by
the last insert. -/
theorem c2_get_last_spec (now : Nat) (t : Table) (b : Body) :
    ((serve now t Path.locationLast ⟨Method.GET, b⟩).2.status = 404 ↔ t = [])
    ∧ (serve now t Path.locationLast ⟨Method.GET, b⟩).1 = t
    ∧ (t ≠ [] →
        ∃ loc, (serve now t Path.locationLast ⟨Method.GET, b⟩).2.status = 200
          ∧ (serve now t Path.locationLast ⟨Method.GET, b⟩).2.body =
              RespBody.jsonLoc loc
          ∧ loc ∈ t ∧ ∀ r ∈ t, r.id ≤ loc.id)
    ∧ (∀ posts : List (Nat × LocationJson),
        (∀ p ∈ posts, p.2.idField.getD 0 = 0) → posts ≠ [] →
        ∃ prev pN, posts.getLast? = some pN ∧
          runJsonPosts [] posts = prev ++ [insertedRow pN.1 prev pN.2] ∧
          (serve now (runJsonPosts [] posts) Path.locationLast
              ⟨Method.GET, b⟩).2.body =
            RespBody.jsonLoc (insertedRow pN.1 prev pN.2)) := by
  refine ⟨?_, ?_, ?_, ?_⟩
  · rw [serve_get_last]
    cases ht : dbFetchLatest t with
    | none => simp [(dbFetchLatest_eq_none_iff t).mp ht]
    | some loc =>
      have : t ≠ [] := by
        intro h
        rw [h] at ht
        cases ht
      simp [this]
  · rw [serve_get_last]
    cases dbFetchLatest t <;> rfl
  · intro hne
    obtain ⟨loc, hfetch, hmem, hmax⟩ := dbFetchLatest_max t hne
    refine ⟨loc, ?_, ?_, hmem, hmax⟩ <;> rw [serve_get_last, hfetch]
  · intro posts hz hne
    obtain ⟨prev, pN, hlast, hrun⟩ := runJsonPosts_last_row posts [] hz hne
    refine ⟨prev, pN, hlast, hrun, ?_⟩
    rw [hrun, serve_get_last,
      dbFetchLatest_append prev _ (insertedRow_dominates pN.1 prev pN.2)]

/-- Witness for C2 at concrete inputs: an empty store answers 404; the
one-record store answers 200 with that record; after two inserts the
second row is returned. -/
theorem c2_get_last_spec_witness :
    ((serve 0 ([] : Table) Path.locationLast
        ⟨Method.GET, Body.json ⟨none, none, none, none⟩⟩).2.status = 404
      ↔ ([] : Table) = [])
    ∧ (∃ loc,
        (serve 3 [⟨1, 5, 6, 7⟩] Path.locationLast
            ⟨Method.GET, Body.json ⟨none, none, none, none⟩⟩).2.status = 200
        ∧ (serve 3 [⟨1, 5, 6, 7⟩] Path.locationLast
            ⟨Method.GET, Body.json ⟨none, none, none, none⟩⟩).2.body =
            RespBody.jsonLoc loc
        ∧ loc ∈ [(⟨1, 5, 6, 7⟩ : Location)]
        ∧ ∀ r ∈ [(⟨1, 5, 6, 7⟩ : Location)], r.id ≤ loc.id)
    ∧ (∃ prev pN,
        ([(1, (⟨none, some 1, some 2, none⟩ : LocationJson)),
          (2, ⟨none, some 3, some 4, none⟩)].getLast? = some pN)
        ∧ runJsonPosts [] [(1, ⟨none, some 1, some 2, none⟩),
            (2, ⟨none, some 3, some 4, none⟩)] =
            prev ++ [insertedRow pN.1 prev pN.2]
        ∧ (serve 9 (runJsonPosts [] [(1, ⟨none, some 1, some 2, none⟩),
              (2, ⟨none, some 3, some 4, none⟩)]) Path.locationLast
            ⟨Method.GET, Body.json ⟨none, none, none, none⟩⟩).2.body =
            RespBody.jsonLoc (insertedRow pN.1 prev pN.2)) :=
  ⟨(c2_get_last_spec 0 [] (Body.json ⟨none, none, none, none⟩)).1,
   (c2_get_last_spec 3 [⟨1, 5, 6, 7⟩]
      (Body.json ⟨none, none, none, none⟩)).2.2.1 (by simp),
   (c2_get_last_spec 9 [] (Body.json ⟨none, none, none, none⟩)).2.2.2
      [(1, ⟨none, some 1, some 2, none⟩), (2, ⟨none, some 3, some 4, none⟩)]
      (by simp) (by simp)⟩

/-- C3 counterexample: two create requests whose JSON bodies carry
explicit `ID` fields (5, then 3) both succeed with 201 — GORM inserts a
non-zero primary key as given — yet the second created record's id (3) is
not strictly greater than the first's (5): the stored ids are not
strictly increasing in creation order. -/
theorem c3_counterexample_client_ids :
    (serve 10 [] Path.location
        ⟨Method.POST, Body.json ⟨some 5, some 1, some 2, none⟩⟩).2.status = 201
    ∧ (serve 11 (serve 10 [] Path.location
          ⟨Method.POST, Body.json ⟨some 5, some 1, some 2, none⟩⟩).1
        Path.location
        ⟨Method.POST, Body.json ⟨some 3, some 1, some 2, none⟩⟩).2.status = 201
    ∧ (serve 11 (serve 10 [] Path.location
          ⟨Method.POST, Body.json ⟨some 5, some 1, some 2, none⟩⟩).1
        Path.location
        ⟨Method.POST, Body.json ⟨some 3, some 1, some 2, none⟩⟩).1.map
        Location.id = [5, 3]
    ∧ ¬ List.Pairwise (fun a b : Location => a.id < b.id)
        (serve 11 (serve 10 [] Path.location
            ⟨Method.POST, Body.json ⟨some 5, some 1, some 2, none⟩⟩).1
          Path.location
          ⟨Method.POST, Body.json ⟨some 3, some 1, some 2, none⟩⟩).1 := by
  refine ⟨rfl, rfl, rfl, ?_⟩
  intro h
  rw [show (serve 11 (serve 10 [] Path.location
      ⟨Method.POST, Body.json ⟨some 5, some 1, some 2, none⟩⟩).1
      Path.location
      ⟨Method.POST, Body.json ⟨some 3, some 1, some 2, none⟩⟩).1 =
    [(⟨5, 1, 2, 10⟩ : Location), ⟨3, 1, 2, 11⟩] from rfl] at h
  have h53 := List.rel_of_pairwise_cons h (List.mem_singleton.mpr rfl)
  exact absurd h53 (by decide)

/-- C3 amended: every create request whose JSON body does not carry a
nonzero `ID` field (in particular every coordinate-only post) succeeds
and is assigned the fresh id `maxId + 1`, strictly greater than the id of
every previously stored record; consequently a run of such creates from
an empty store yields pairwise strictly increasing ids — unique and never
reused. -/
theorem c3_amended_ids_strictly_increase :
    (∀ (now : Nat) (t : Table) (j : LocationJson),
      j.idField.getD 0 = 0 →
      ∃ r, serve now t Path.location ⟨Method.POST, Body.json j⟩ =
          (t ++ [r],
           ⟨201, corsHeaders, RespBody.jsonMsg "Location saved successfully"⟩)
        ∧ r.id = maxId t + 1 ∧ ∀ r2 ∈ t, r2.id < r.id)
    ∧ (∀ posts : List (Nat × LocationJson),
        (∀ p ∈ posts, p.2.idField.getD 0 = 0) →
        List.Pairwise (fun a b => a.id < b.id) (runJsonPosts [] posts)) := by
  constructor
  · intro now t j hz
    exact ⟨insertedRow now t j, serve_post_zero_id now t j hz, rfl,
      insertedRow_dominates now t j⟩
  · intro posts hz
    exact runJsonPosts_pairwise posts [] hz List.Pairwise.nil

/-- Witness for the amended C3 at concrete inputs: a coordinate-only post
on a one-record store gets id 2, and a concrete two-post run has strictly
increasing ids. -/
theorem c3_amended_ids_strictly_increase_witness :
    (∃ r, serve 7 [⟨1, 5, 6, 7⟩] Path.location
          ⟨Method.POST, Body.json ⟨none, some 1, some 2, none⟩⟩ =
        ([⟨1, 5, 6, 7⟩] ++ [r],
         ⟨201, corsHeaders, RespBody.jsonMsg "Location saved successfully"⟩)
      ∧ r.id = maxId [⟨1, 5, 6, 7⟩] + 1
      ∧ ∀ r2 ∈ [(⟨1, 5, 6, 7⟩ : Location)], r2.id < r.id)
    ∧ List.Pairwise (fun a b => a.id < b.id)
        (runJsonPosts [] [(1, ⟨none, some 1, some 2, none⟩),
          (2, ⟨none, some 3, some 4, none⟩)]) :=
  ⟨c3_amended_ids_strictly_increase.1 7 [⟨1, 5, 6, 7⟩]
      ⟨none, some 1, some 2, none⟩ rfl,
   c3_amended_ids_strictly_increase.2
      [(1, ⟨none, some 1, some 2, none⟩), (2, ⟨none, some 3, some 4, none⟩)]
      (by simp)⟩

/-- C4: evaluation at the failing input. A POST whose JSON body carries
`ID` 42 and `Timestamp` 7, processed at time 99 against the empty store,
persists a record with the client's id 42 (not the server-assigned
`maxId + 1 = 1`) and the client's timestamp 7 (not the insertion time
99): GORM inserts a non-zero primary key as given and `autoCreateTime`
fills only a zero field, so client-supplied `ID`/`Timestamp` do take
effect, contrary to the claim. -/
theorem c4_client_id_and_timestamp_take_effect :
    serve 99 [] Path.location
        ⟨Method.POST, Body.json ⟨some 42, some 1, some 2, some 7⟩⟩ =
      ([⟨42, 1, 2, 7⟩],
       ⟨201, corsHeaders, RespBody.jsonMsg "Location saved successfully"⟩)
    ∧ 42 ≠ maxId [] + 1 ∧ (7 : Nat) ≠ 99 := by
  exact ⟨rfl, by decide, by decide⟩

/-- C5: a POST to the create endpoint whose body is not decodable as JSON
is answered with 400 and a message embedding the decode failure detail,
and the store is unchanged (no record is created). -/
theorem c5_malformed_body_rejected (now : Nat) (t : Table) (e : String) :
    serve now t Path.location ⟨Method.POST, Body.malformed e⟩ =
      (t, ⟨400, corsHeaders,
           RespBody.text ("Invalid request payload: " ++ e)⟩) := by
  simp only [serve, enableCORS, handlePostLocation, decodeBody]
  rw [if_neg (by simp), if_neg (by simp)]
  simp

/-- C6: a request to `/api/location` with a method other than POST and
OPTIONS, and a request to `/api/location/last` with a method other than
GET and OPTIONS, are each answered with 405 and leave the store
untouched; the response is a constant, independent of the store. -/
theorem c6_wrong_method_rejected (now : Nat) (t : Table) (b : Body)
    (m : Method) :
    (m ≠ Method.POST → m ≠ Method.OPTIONS →
      serve now t Path.location ⟨m, b⟩ =
        (t, ⟨405, corsHeaders, RespBody.text "Method not allowed"⟩))
    ∧ (m ≠ Method.GET → m ≠ Method.OPTIONS →
      serve now t Path.locationLast ⟨m, b⟩ =
        (t, ⟨405, corsHeaders, RespBody.text "Method not allowed"⟩)) := by
  constructor
  · intro hpost hopt
    simp only [serve, enableCORS, handlePostLocation]
    rw [if_neg (by simpa using hopt), if_pos (by simpa using hpost)]
    simp
  · intro hget hopt
    simp only [serve, enableCORS, handleGetLastLocation]
    rw [if_neg (by simpa using hopt), if_pos (by simpa using hget)]
    simp

/-- Witness for C6 at concrete inputs: a GET to the create path and a
POST to the fetch-latest path each yield the 405 response. -/
theorem c6_wrong_method_rejected_witness :
    serve 0 [] Path.location ⟨Method.GET, Body.json ⟨none, none, none, none⟩⟩ =
      ([], ⟨405, corsHeaders, RespBody.text "Method not allowed"⟩)
    ∧ serve 0 [] Path.locationLast
        ⟨Method.POST, Body.json ⟨none, none, none, none⟩⟩ =
      ([], ⟨405, corsHeaders, RespBody.text "Method not allowed"⟩) :=
  ⟨(c6_wrong_method_rejected 0 [] (Body.json ⟨none, none, none, none⟩)
      Method.GET).1 (by decide) (by decide),
   (c6_wrong_method_rejected 0 [] (Body.json ⟨none, none, none, none⟩)
      Method.POST).2 (by decide) (by decide)⟩

/-- C7: a POST whose JSON body decodes and whose insert succeeds is
answered with status 201 and the JSON acknowledgment object whose single
field is the message `Location saved successfully`; the response body
carries neither the assigned id nor the timestamp. -/
theorem c7_created_response (now : Nat) (t : Table) (j : LocationJson)
    (t2 : Table) (r : Location)
    (hok : dbCreate now t
        ⟨j.idField.getD 0, j.latitudeField.getD 0, j.longitudeField.getD 0,
         j.timestampField.getD 0⟩ = Except.ok (t2, r)) :
    serve now t Path.location ⟨Method.POST, Body.json j⟩ =
      (t2, ⟨201, corsHeaders,
            RespBody.jsonMsg "Location saved successfully"⟩) := by
  simp only [serve, enableCORS, handlePostLocation, decodeBody]
  rw [if_neg (by simp), if_neg (by simp)]
  simp only [hok]
  simp

/-- Witness for C7 at a concrete input: a coordinate-only post on the
empty store is acknowledged with 201 and the message body. -/
theorem c7_created_response_witness :
    serve 5 [] Path.location
        ⟨Method.POST, Body.json ⟨none, some 1, some 2, none⟩⟩ =
      ([⟨1, 1, 2, 5⟩],
       ⟨201, corsHeaders, RespBody.jsonMsg "Location saved successfully"⟩) :=
  c7_created_response 5 [] ⟨none, some 1, some 2, none⟩ [⟨1, 1, 2, 5⟩]
    ⟨1, 1, 2, 5⟩ rfl

/-- C8: every response from either registered endpoint starts with the
three cross-origin headers, and an OPTIONS request to either path is
answered with 200 and an empty body, bypassing the route handler and
leaving the store untouched, independently of the store's state. -/
theorem c8_cors_headers_and_preflight (now : Nat) (t : Table) (p : Path)
    (r : Request) :
    (∃ rest, (serve now t p r).2.headers = corsHeaders ++ rest)
    ∧ (r.method = Method.OPTIONS →
        serve now t p r = (t, ⟨200, corsHeaders, RespBody.empty⟩)) := by
  constructor
  · by_cases hm : r.method = Method.OPTIONS
    · refine ⟨[], ?_⟩
      cases p <;> simp [serve, enableCORS, hm]
    · cases p with
      | location =>
        exact ⟨(handlePostLocation now t r).2.headers,
          by simp [serve, enableCORS, hm]⟩
      | locationLast =>
        exact ⟨(handleGetLastLocation now t r).2.headers,
          by simp [serve, enableCORS, hm]⟩
  · intro hm
    cases p <;> simp [serve, enableCORS, hm]

/-- Witness for C8 at a concrete input: an OPTIONS request to the create
path on a nonempty store returns 200, empty body, and only the three
cross-origin headers, leaving the store unchanged. -/
theorem c8_cors_headers_and_preflight_witness :
    serve 4 [⟨1, 5, 6, 7⟩] Path.location
        ⟨Method.OPTIONS, Body.json ⟨none, none, none, none⟩⟩ =
      ([⟨1, 5, 6, 7⟩], ⟨200, corsHeaders, RespBody.empty⟩) :=
  (c8_cors_headers_and_preflight 4 [⟨1, 5, 6, 7⟩] Path.location
      ⟨Method.OPTIONS, Body.json ⟨none, none, none, none⟩⟩).2 rfl

/-- C9: frame property. A single served request either leaves the table
exactly as it was or appends exactly one new record at the end — stored
records are never mutated or deleted — and consequently the table before
any sequence of served requests is a prefix of the table after it. -/
theorem c9_records_immutable :
    (∀ (now : Nat) (t : Table) (p : Path) (r : Request),
      (serve now t p r).1 = t ∨ ∃ r2, (serve now t p r).1 = t ++ [r2])
    ∧ (∀ (t : Table) (ops : List (Nat × Path × Request)),
        t <+: serveAll t ops) := by
  have hstep : ∀ (now : Nat) (t : Table) (p : Path) (r : Request),
      (serve now t p r).1 = t ∨ ∃ r2, (serve now t p r).1 = t ++ [r2] := by
    intro now t p r
    cases p with
    | location =>
      simp only [serve, enableCORS]
      by_cases hm : r.method = Method.OPTIONS
      · simp [hm]
      · simp only [if_neg hm]
        simp only [handlePostLocation]
        by_cases hp : r.method ≠ Method.POST
        · simp [hp]
        · simp only [if_neg hp]
          cases hd : decodeBody r.body with
          | error e => simp
          | ok loc =>
            simp only []
            unfold dbCreate
            by_cases htaken :
                idTaken t (if loc.id = 0 then maxId t + 1 else loc.id) = true
            · simp [htaken]
            · simp only [eq_self_iff_true]
              rw [if_neg (by simpa using htaken)]
              right
              exact ⟨_, rfl⟩
    | locationLast =>
      simp only [serve, enableCORS]
      by_cases hm : r.method = Method.OPTIONS
      · simp [hm]
      · simp only [if_neg hm]
        simp only [handleGetLastLocation]
        by_cases hg : r.method ≠ Method.GET
        · simp [hg]
        · simp only [if_neg hg]
          cases dbFetchLatest t <;> simp
  refine ⟨hstep, ?_⟩
  intro t ops
  induction ops generalizing t with
  | nil => exact List.prefix_refl t
  | cons op rest ih =>
    obtain ⟨now, p, r⟩ := op
    have hpre : t <+: (serve now t p r).1 := by
      rcases hstep now t p r with h | ⟨r2, h⟩
      · rw [h]
      · rw [h]; exact List.prefix_append t [r2]
    exact hpre.trans (ih (serve now t p r).1)

/-- C10: the server performs no field-presence or range validation: a
POST whose body is any decodable JSON object is accepted with 201
whenever the insert succeeds (that is, whenever the id the store would
use is not already taken — always the case when the body carries no
nonzero `ID`), and any absent field of the decoded body is stored as the
Go zero value; in particular an absent `Latitude` or `Longitude` is
stored as 0. -/
theorem c10_absent_fields_stored_as_zero (now : Nat) (t : Table)
    (j : LocationJson)
    (hfresh : idTaken t
        (if j.idField.getD 0 = 0 then maxId t + 1 else j.idField.getD 0)
      = false) :
    serve now t Path.location ⟨Method.POST, Body.json j⟩ =
      (t ++ [⟨if j.idField.getD 0 = 0 then maxId t + 1 else j.idField.getD 0,
              j.latitudeField.getD 0, j.longitudeField.getD 0,
              if j.timestampField.getD 0 = 0 then now
              else j.timestampField.getD 0⟩],
       ⟨201, corsHeaders, RespBody.jsonMsg "Location saved successfully"⟩) := by
  simp only [serve, enableCORS, handlePostLocation, decodeBody]
  rw [if_neg (by simp), if_neg (by simp)]
  unfold dbCreate
  simp only [hfresh]
  simp

/-- Witness for C10 at a concrete input: posting the empty JSON object
(no fields at all) to a store holding one record is accepted with 201 and
stores latitude 0 and longitude 0. -/
theorem c10_absent_fields_stored_as_zero_witness :
    serve 9 [⟨1, 5, 6, 7⟩] Path.location
        ⟨Method.POST, Body.json ⟨none, none, none, none⟩⟩ =
      ([⟨1, 5, 6, 7⟩] ++ [⟨2, 0, 0, 9⟩],
       ⟨201, corsHeaders, RespBody.jsonMsg "Location saved successfully"⟩) :=
  c10_absent_fields_stored_as_zero 9 [⟨1, 5, 6, 7⟩] ⟨none, none, none, none⟩
    rfl

end TestGps
